import Mathlib

/-!
Verification of the cleaning-robots simulation (`agent_clean.py`).

The Python source builds a mesa `MultiGrid` of `CeldaAgent` dirt cells, a set
of `LimpiadorAgent` cleaners that all start at coordinate (1, 1), and a
`HabitacionModel` that drives rounds until every initially dirty cell is
clean.  The definitions below are a shallow embedding of that code:

* randomness: mesa draws from one `random.Random` instance; we model the
  random source as an oracle `Rng`, a list of naturals consumed one draw at a
  time.  `random.choice(l)` is modelled as indexing `l` at `draw % l.length`,
  so every element of `l` is reachable by some oracle, which is all the
  claims need.  `random.sample(range n, k)` is modelled as `k` successive
  removals from the pool at oracle-chosen indices, and raises `ValueError`
  exactly when `k > n` as in CPython.
* mesa `SimultaneousActivation` calls `agent.step()` for every scheduled
  agent in insertion order and then the (no-op) `agent.advance()`; since
  `LimpiadorAgent` performs its effects inside `step`, a round is the
  sequential fold `runOrder` of per-agent steps.
* each per-agent step first reads the grid (`decideStep`) and then writes
  (`applyAction`); the Python body interleaves no write before its reads, so
  `agentStep` is their composition.
* errors (`ValueError` from `random.sample`, `IndexError` from the unchecked
  list indexing in `place_agent`, `ZeroDivisionError` in the metric) are
  modelled with `Except`.
-/

abbrev Pos := ℤ × ℤ

abbrev Rng := List Nat

/-- One random draw: Python `random` consumes the head of the oracle. -/
def nextRand (r : Rng) : Nat × Rng := (r.headD 0, r.tail)

/-- `CeldaAgent`: a dirt cell with its grid position and dirty flag. -/
structure CeldaAgent where
  unique_id : Nat
  pos : Pos
  sucia : Bool
  deriving DecidableEq

/-- `CeldaAgent.limpiar`: set the cell state to clean. -/
def limpiar (c : CeldaAgent) : CeldaAgent := { c with sucia := false }

/-- `LimpiadorAgent`: a cleaner with its position and movement counter. -/
structure LimpiadorAgent where
  unique_id : Nat
  pos : Pos
  movimientos : Nat
  deriving DecidableEq

/-- The mutable grid contents: the dirt cells and the cleaners. -/
structure Core where
  celdas : List CeldaAgent
  limps : List LimpiadorAgent
  deriving DecidableEq

/-- The eight Moore offsets enumerated by mesa `get_neighborhood`. -/
def mooreDeltas : List Pos :=
  [(-1, -1), (-1, 0), (-1, 1), (0, -1), (0, 1), (1, -1), (1, 0), (1, 1)]

/-- Mesa grid bounds test for a `width = M`, `height = N` grid. -/
def inBounds (M N : ℤ) (p : Pos) : Bool :=
  decide (0 ≤ p.1 ∧ p.1 < M ∧ 0 ≤ p.2 ∧ p.2 < N)

/-- Mesa `get_neighborhood(pos, moore=True, include_center=False)` on a
non-toroidal grid: the Moore offsets around `p`, clipped to the bounds. -/
def get_neighborhood (M N : ℤ) (p : Pos) : List Pos :=
  (mooreDeltas.map (fun d => (p.1 + d.1, p.2 + d.2))).filter (fun q => inBounds M N q)

/-- `any(isinstance(obj, CeldaAgent) and obj.sucia for obj in contents)`. -/
def hasDirtyCelda (celdas : List CeldaAgent) (p : Pos) : Bool :=
  celdas.any (fun c => decide (c.pos = p) && c.sucia)

/-- `any(isinstance(a, LimpiadorAgent) for a in contents)` at coordinate `p`. -/
def hasLimpiador (limps : List LimpiadorAgent) (p : Pos) : Bool :=
  limps.any (fun a => decide (a.pos = p))

/-- The clean branch of `LimpiadorAgent.step`: every dirty cell at the
agent's coordinate gets `limpiar` called on it. -/
def cleanAt (celdas : List CeldaAgent) (p : Pos) : List CeldaAgent :=
  celdas.map (fun c => if c.pos = p ∧ c.sucia = true then limpiar c else c)

/-- The effect a cleaner's step settles on. -/
inductive AgentAction where
  | limpiarCelda : Pos → AgentAction
  | moverA : Nat → Pos → AgentAction
  | quedarse : AgentAction
  deriving DecidableEq

/-- The read phase of `LimpiadorAgent.step` / `mover` for the agent stored at
index `i` of the cleaner list: inspect the contents of the own cell; if some
dirt cell there is dirty, clean; otherwise filter the Moore neighborhood to
coordinates holding no cleaner and pick one at random (consuming a draw only
when the candidate list is non-empty, as `random.choice` is only then
called). -/
def decideStep (M N : ℤ) (c : Core) (i : Nat) (r : Rng) : AgentAction × Rng :=
  match c.limps.get? i with
  | none => (AgentAction.quedarse, r)
  | some l =>
    if hasDirtyCelda c.celdas l.pos then (AgentAction.limpiarCelda l.pos, r)
    else
      let posibles := get_neighborhood M N l.pos
      let valid := posibles.filter (fun p => !(hasLimpiador c.limps p))
      if valid.length = 0 then (AgentAction.quedarse, r)
      else
        let d := r.headD 0
        (AgentAction.moverA i (valid.getD (d % valid.length) (0, 0)), r.tail)

/-- The write phase: `obj.limpiar()` on the dirty cells of the coordinate, or
`grid.move_agent` plus the `movimientos` increment. -/
def applyAction (c : Core) : AgentAction → Core
  | AgentAction.limpiarCelda p => { c with celdas := cleanAt c.celdas p }
  | AgentAction.moverA i p =>
    match c.limps.get? i with
    | none => c
    | some l =>
      { c with limps := c.limps.set i { l with pos := p, movimientos := l.movimientos + 1 } }
  | AgentAction.quedarse => c

/-- One full `LimpiadorAgent.step`: all reads precede all writes in the
Python body, so the step is `decideStep` followed by `applyAction`. -/
def agentStep (M N : ℤ) (c : Core) (i : Nat) (r : Rng) : Core × Rng :=
  let s := decideStep M N c i r
  (applyAction c s.1, s.2)

/-- A scheduler round as the source executes it: mesa
`SimultaneousActivation.step` calls every agent's `step` sequentially in
insertion order (the `advance` hooks are the inherited no-ops), so each agent
sees the mutations of the agents before it in the order. -/
def runOrder (M N : ℤ) (order : List Nat) (s : Core × Rng) : Core × Rng :=
  order.foldl (fun s i => agentStep M N s.1 i s.2) s

/-- Modelled from the spec: the decide phase of the two-phase round semantics
of spec sections 5 and 9 — every agent's decision is computed against the one
shared pre-round snapshot `snap`, threading the random source in schedule
order.  The repository's code has no such phase separation. -/
def decidePhase (M N : ℤ) (snap : Core) (order : List Nat) (r : Rng) :
    List AgentAction × Rng :=
  order.foldl (fun acc i =>
    let s := decideStep M N snap i acc.2
    (acc.1 ++ [s.1], s.2)) ([], r)

/-- Modelled from the spec: the two-phase decide-then-apply round — collect
all decisions against the pre-round snapshot, then apply them in order. -/
def twoPhaseRound (M N : ℤ) (order : List Nat) (c : Core) (r : Rng) : Core × Rng :=
  let dec := decidePhase M N c order r
  (dec.1.foldl applyAction c, dec.2)

/-- Python exceptions the embedded code can raise. -/
inductive PyError where
  | valueError
  | indexError
  | zeroDivisionError
  deriving DecidableEq

/-- Selection core of `random.sample`: `k` draws without replacement from the
pool, each at an oracle-chosen index. -/
def sampleAux : Nat → List Nat → Rng → List Nat × Rng
  | 0, _, r => ([], r)
  | k + 1, pool, r =>
    let d := r.headD 0
    let idx := d % pool.length
    let rest := sampleAux k (pool.eraseIdx idx) r.tail
    (pool.getD idx 0 :: rest.1, rest.2)

/-- `random.sample(range(n), k)`: raises `ValueError` exactly when the sample
is larger than the population, else draws `k` elements without replacement. -/
def randomSample (n k : Nat) (r : Rng) : Except PyError (List Nat × Rng) :=
  if k ≤ n then Except.ok (sampleAux k (List.range n) r)
  else Except.error PyError.valueError

/-- `HabitacionModel` state: parameters, grid contents, the recorded
initially-dirty coordinates, the run flag, the scheduler step counter and
the rows collected by the `DataCollector`. -/
structure HabitacionModel where
  M : ℤ
  N : ℤ
  num_agentes : Nat
  celdas_sucias : Nat
  core : Core
  dirty_positions : List Pos
  running : Bool
  steps : Nat
  collected : List (ℚ × Nat)
  deriving DecidableEq

/-- The nested cell-creation loops of `HabitacionModel.__init__`: one
`CeldaAgent` per coordinate `(i, j)`, dirty iff its `unique_id` was sampled.
The `unique_id` counter, incremented once per created cell, equals
`i * N + j` at iteration `(i, j)`. -/
def initCeldas (M N : ℤ) (sampled : List Nat) : List CeldaAgent :=
  (List.range M.toNat).flatMap (fun i =>
    (List.range N.toNat).map (fun j =>
      { unique_id := i * N.toNat + j
        pos := ((i : ℤ), (j : ℤ))
        sucia := decide (i * N.toNat + j ∈ sampled) }))

/-- The cleaner-creation loop: `num_agentes` cleaners with ids `0, 1, ...`,
all placed at the shared coordinate (1, 1), counters at zero. -/
def initLimps (K : Nat) : List LimpiadorAgent :=
  (List.range K).map (fun i => { unique_id := i, pos := (1, 1), movimientos := 0 })

/-- `HabitacionModel.__init__`.  `random.sample(range(M * N), D)` runs first
and raises `ValueError` when `D` exceeds the cell count; afterwards each
cleaner is placed with `grid.place_agent(limpiador, (1, 1))`, which indexes
the mesa grid lists without any bounds check, so with at least one cleaner
and fewer than 2 rows or fewer than 2 columns the placement raises
`IndexError`.  A Python `range` over a negative bound is empty, hence the
`toNat` on the population and on the loop bounds. -/
def habitacionInit (M N : ℤ) (K D : Nat) (r : Rng) :
    Except PyError (HabitacionModel × Rng) :=
  if D ≤ (M * N).toNat then
    let s := sampleAux D (List.range (M * N).toNat) r
    let celdas := initCeldas M N s.1
    if K ≠ 0 ∧ (M < 2 ∨ N < 2) then Except.error PyError.indexError
    else
      Except.ok
        ({ M := M, N := N, num_agentes := K, celdas_sucias := D
           core := { celdas := celdas, limps := initLimps K }
           dirty_positions := (celdas.filter (fun c => c.sucia)).map (fun c => c.pos)
           running := true, steps := 0, collected := [] }, s.2)
  else Except.error PyError.valueError

/-- The generator-sum of `contar_celdas_limpias`: over the recorded dirty
coordinates, count the contents that are clean dirt cells. -/
def celdasLimpiasCount (m : HabitacionModel) : Nat :=
  (m.dirty_positions.map (fun p =>
    (m.core.celdas.filter (fun c => decide (c.pos = p ∧ c.sucia = false))).length)).sum

/-- `HabitacionModel.contar_celdas_limpias`: the count above divided by
`celdas_sucias` and scaled to a percentage — a `ZeroDivisionError` exactly
when `celdas_sucias` is zero (the count itself never raises, so raising
before or after computing it is the same observable behaviour). -/
def contar_celdas_limpias (m : HabitacionModel) : Except PyError ℚ :=
  if m.celdas_sucias = 0 then Except.error PyError.zeroDivisionError
  else Except.ok ((celdasLimpiasCount m : ℚ) / (m.celdas_sucias : ℚ) * 100)

/-- `HabitacionModel.contar_movimientos`: the scheduled agents are exactly
the cleaners, so this is the sum of their counters. -/
def contar_movimientos (m : HabitacionModel) : Nat :=
  (m.core.limps.map (fun a => a.movimientos)).sum

/-- `HabitacionModel.step`: collect the metrics (which evaluates the clean
percentage and can raise `ZeroDivisionError`), then either halt when the
percentage reached 100 or run the scheduler round and advance the step
counter. -/
def habitacionStep (m : HabitacionModel) (r : Rng) :
    Except PyError (HabitacionModel × Rng) :=
  match contar_celdas_limpias m with
  | Except.error e => Except.error e
  | Except.ok pct =>
    let m1 := { m with collected := m.collected ++ [(pct, contar_movimientos m)] }
    if 100 ≤ pct then Except.ok ({ m1 with running := false }, r)
    else
      let s := runOrder m.M m.N (List.range m1.core.limps.length) (m1.core, r)
      Except.ok ({ m1 with core := s.1, steps := m1.steps + 1 }, s.2)

instance exceptDecEq {ε α : Type} [DecidableEq ε] [DecidableEq α] :
    DecidableEq (Except ε α)
  | Except.ok x, Except.ok y =>
    if h : x = y then isTrue (by rw [h])
    else isFalse (fun hc => h (Except.ok.inj hc))
  | Except.ok _, Except.error _ => isFalse (fun hc => Except.noConfusion hc)
  | Except.error _, Except.ok _ => isFalse (fun hc => Except.noConfusion hc)
  | Except.error x, Except.error y =>
    if h : x = y then isTrue (by rw [h])
    else isFalse (fun hc => h (Except.error.inj hc))

/-- Fallback model used when extracting from an `Except` that is `ok`. -/
def emptyModel : HabitacionModel :=
  { M := 0, N := 0, num_agentes := 0, celdas_sucias := 0
    core := { celdas := [], limps := [] }
    dirty_positions := [], running := true, steps := 0, collected := [] }

/-- Extract the constructed or stepped model out of an `Except` result. -/
def modelOf (e : Except PyError (HabitacionModel × Rng)) : HabitacionModel :=
  match e with
  | Except.ok x => x.1
  | Except.error _ => emptyModel

/-! ## General evaluation and support lemmas -/

lemma contar_ok (m : HabitacionModel) (hD : m.celdas_sucias ≠ 0) :
    contar_celdas_limpias m =
      Except.ok ((celdasLimpiasCount m : ℚ) / (m.celdas_sucias : ℚ) * 100) := by
  unfold contar_celdas_limpias; rw [if_neg hD]

lemma habitacionStep_ok_ge {m : HabitacionModel} {r : Rng} {pct : ℚ}
    (h : contar_celdas_limpias m = Except.ok pct) (hge : 100 ≤ pct) :
    habitacionStep m r =
      Except.ok ({ m with
                   collected := m.collected ++ [(pct, contar_movimientos m)]
                   running := false }, r) := by
  unfold habitacionStep
  rw [h]
  dsimp only
  rw [if_pos hge]

lemma habitacionStep_ok_lt {m : HabitacionModel} {r : Rng} {pct : ℚ}
    (h : contar_celdas_limpias m = Except.ok pct) (hlt : pct < 100) :
    habitacionStep m r =
      Except.ok ({ m with
                   collected := m.collected ++ [(pct, contar_movimientos m)]
                   core := (runOrder m.M m.N (List.range m.core.limps.length) (m.core, r)).1
                   steps := m.steps + 1 },
        (runOrder m.M m.N (List.range m.core.limps.length) (m.core, r)).2) := by
  unfold habitacionStep
  rw [h]
  dsimp only
  rw [if_neg (not_le.mpr hlt)]

lemma habitacionInit_isOk_iff (M N : ℤ) (K D : Nat) (r : Rng) :
    (habitacionInit M N K D r).toOption ≠ none ↔
      (D ≤ (M * N).toNat ∧ (K = 0 ∨ (2 ≤ M ∧ 2 ≤ N))) := by
  unfold habitacionInit
  by_cases h1 : D ≤ (M * N).toNat
  · rw [if_pos h1]
    by_cases h2 : K ≠ 0 ∧ (M < 2 ∨ N < 2)
    · rw [if_pos h2]
      simp only [Except.toOption, h1, true_and, ne_eq, not_true_eq_false,
        false_iff]
      omega
    · rw [if_neg h2]
      simp only [Except.toOption, h1, true_and, ne_eq, reduceCtorEq,
        not_false_eq_true, true_iff]
      by_cases hk : K = 0
      · exact Or.inl hk
      · push_neg at h2; have := h2 hk; right; omega
  · rw [if_neg h1]
    simp only [Except.toOption, ne_eq, not_true_eq_false, false_iff]
    omega

lemma mem_get_neighborhood {M N : ℤ} {c p : Pos} :
    p ∈ get_neighborhood M N c ↔
      (inBounds M N p = true ∧ p ≠ c ∧
        (p.1 - c.1).natAbs ≤ 1 ∧ (p.2 - c.2).natAbs ≤ 1) := by
  unfold get_neighborhood mooreDeltas
  rw [List.mem_filter]
  constructor
  · rintro ⟨hm, hb⟩
    rcases List.mem_map.mp hm with ⟨d, hd, rfl⟩
    refine ⟨hb, ?_, ?_, ?_⟩
    · fin_cases hd <;>
        (intro hc; rw [Prod.ext_iff] at hc; simp only at hc; omega)
    · fin_cases hd <;> (simp only; omega)
    · fin_cases hd <;> (simp only; omega)
  · rintro ⟨hb, hne, h1, h2⟩
    refine ⟨List.mem_map.mpr ⟨(p.1 - c.1, p.2 - c.2), ?_, ?_⟩, hb⟩
    · have hne2 : ¬(p.1 - c.1 = 0 ∧ p.2 - c.2 = 0) := by
        rintro ⟨a, b⟩
        exact hne (Prod.ext_iff.mpr ⟨by omega, by omega⟩)
      have hx : p.1 - c.1 = -1 ∨ p.1 - c.1 = 0 ∨ p.1 - c.1 = 1 := by omega
      have hy : p.2 - c.2 = -1 ∨ p.2 - c.2 = 0 ∨ p.2 - c.2 = 1 := by omega
      simp only [List.mem_cons, List.not_mem_nil, or_false, Prod.mk.injEq,
        Prod.ext_iff]
      rcases hx with hx | hx | hx <;> rcases hy with hy | hy | hy <;>
        simp [hx, hy] at hne2 ⊢
    · exact Prod.ext_iff.mpr ⟨by simp, by simp⟩

lemma agentStep_inBounds (M N : ℤ) (c : Core) (i : Nat) (r : Rng)
    (h : ∀ l ∈ c.limps, inBounds M N l.pos = true) :
    ∀ l ∈ (agentStep M N c i r).1.limps, inBounds M N l.pos = true := by
  unfold agentStep decideStep
  rcases hg : c.limps.get? i with _ | l0
  · simpa [applyAction] using h
  · dsimp only
    by_cases hd : hasDirtyCelda c.celdas l0.pos
    · rw [if_pos hd]; simpa [applyAction] using h
    · rw [if_neg hd]
      set valid := (get_neighborhood M N l0.pos).filter
        (fun p => !(hasLimpiador c.limps p)) with hv
      by_cases hz : valid.length = 0
      · rw [if_pos hz]; simpa [applyAction] using h
      · rw [if_neg hz]
        simp only [applyAction]
        rw [hg]
        dsimp only
        intro l hl
        rcases List.mem_or_eq_of_mem_set hl with hmem | rfl
        · exact h l hmem
        · dsimp only
          have hk : r.headD 0 % valid.length < valid.length :=
            Nat.mod_lt _ (Nat.pos_of_ne_zero hz)
          have hmem2 : valid.getD (r.headD 0 % valid.length) (0, 0) ∈ valid := by
            rw [List.getD_eq_get _ _ hk]
            exact List.get_mem _ _ _
          have := (List.mem_filter.mp hmem2).1
          exact (mem_get_neighborhood.mp this).1

lemma runOrder_inBounds (M N : ℤ) (order : List Nat) (c : Core) (r : Rng)
    (h : ∀ l ∈ c.limps, inBounds M N l.pos = true) :
    ∀ l ∈ (runOrder M N order (c, r)).1.limps, inBounds M N l.pos = true := by
  induction order generalizing c r with
  | nil => exact h
  | cons i t ih =>
    have hstep := agentStep_inBounds M N c i r h
    have heq : runOrder M N (i :: t) (c, r) =
        runOrder M N t ((agentStep M N c i r).1, (agentStep M N c i r).2) := rfl
    rw [heq]
    exact ih _ _ hstep

/-! ## Claim C1: in-round snapshot semantics / order independence -/

/-- The 3-by-3 model with two cleaners and one dirty cell at their shared
start coordinate (1, 1) (sample draw 4 selects `unique_id` 4). -/
def c1Model : HabitacionModel := modelOf (habitacionInit 3 3 2 1 [4])

lemma c1contar : contar_celdas_limpias c1Model = Except.ok 0 := by
  rw [contar_ok c1Model (by decide),
    show celdasLimpiasCount c1Model = 0 from by decide]
  norm_num

/-- C1 is false on the code: with two cleaners on a dirty cell, the first
agent cleans it inside its own `step`, so the second agent already observes
the clean cell in the same round and moves away.  The round outcome differs
between the two processing orders, and differs from the two-phase
decide-then-apply semantics (under which both agents clean and nobody
moves), with the same random source throughout. -/
theorem round_order_dependence_cex :
    habitacionInit 3 3 2 1 [4] = Except.ok (c1Model, []) ∧
    runOrder 3 3 (List.range 2) (c1Model.core, []) ≠
      runOrder 3 3 [1, 0] (c1Model.core, []) ∧
    runOrder 3 3 (List.range 2) (c1Model.core, []) ≠
      twoPhaseRound 3 3 (List.range 2) c1Model.core [] ∧
    (modelOf (habitacionStep c1Model [])).core =
      (runOrder 3 3 (List.range 2) (c1Model.core, [])).1 := by
  refine ⟨by decide, by decide, by decide, ?_⟩
  rw [habitacionStep_ok_lt c1contar (by norm_num)]
  decide

/-- C1 (amended): the round applies every agent's effect immediately, so a
later agent observes an earlier agent's same-round mutation and the round is
neither order-independent nor equal to the two-phase decide-then-apply
semantics in general; the claimed equivalence does hold whenever at most one
cleaner is scheduled. -/
theorem single_agent_round_eq_two_phase (M N : ℤ) (c : Core) (r : Rng)
    (h : c.limps.length ≤ 1) :
    runOrder M N (List.range c.limps.length) (c, r) =
      twoPhaseRound M N (List.range c.limps.length) c r := by
  have h01 : c.limps.length = 0 ∨ c.limps.length = 1 := by omega
  rcases h01 with h0 | h1
  · rw [h0]; rfl
  · rw [h1, show List.range 1 = [0] from by decide]
    unfold runOrder twoPhaseRound decidePhase
    simp only [List.foldl]
    unfold agentStep
    rcases hd : decideStep M N c 0 r with ⟨a, r2⟩
    simp [hd]

theorem single_agent_round_eq_two_phase_witness :
    runOrder 5 5 (List.range (Core.mk [] [⟨0, (1, 1), 0⟩]).limps.length)
        (Core.mk [] [⟨0, (1, 1), 0⟩], [7]) =
      twoPhaseRound 5 5 (List.range (Core.mk [] [⟨0, (1, 1), 0⟩]).limps.length)
        (Core.mk [] [⟨0, (1, 1), 0⟩]) [7] :=
  single_agent_round_eq_two_phase 5 5 (Core.mk [] [⟨0, (1, 1), 0⟩]) [7] (by decide)

/-! ## Claim C2: dirty_count = 0 -/

/-- C2 (code bug): with `dirty_count = 0` construction succeeds, but
`contar_celdas_limpias` divides the clean count by `celdas_sucias = 0`, so
the very first step raises `ZeroDivisionError` instead of reporting a
vacuous 100 percent; `running` is still true and nothing was reported. -/
theorem zero_dirty_divzero_bug :
    (habitacionInit 3 3 1 0 []).toOption ≠ none ∧
    contar_celdas_limpias (modelOf (habitacionInit 3 3 1 0 [])) =
      Except.error PyError.zeroDivisionError ∧
    habitacionStep (modelOf (habitacionInit 3 3 1 0 [])) [] =
      Except.error PyError.zeroDivisionError ∧
    (modelOf (habitacionInit 3 3 1 0 [])).running = true := by decide

/-! ## Claim C3: construction validity -/

/-- C3 is false on the code in both directions: the all-positive tuple
`(1, 1, 1, 0)` satisfies the claimed validity condition yet construction
fails (`IndexError` from placing the cleaner at (1, 1) in a 1-by-1 grid),
while `(0, 5, 0, 0)` has a non-positive dimension yet construction
succeeds. -/
theorem init_param_validation_cex :
    habitacionInit 1 1 1 0 [] = Except.error PyError.indexError ∧
    (habitacionInit 0 5 0 0 []).toOption ≠ none := by decide

/-- C3 (amended): construction succeeds iff `dirty_count ≤ max(M·N, 0)` and
(no cleaner is requested, or both dimensions are at least 2).  The failures
are `ValueError` from `random.sample` when `dirty_count` exceeds the cell
count, and `IndexError` from the unchecked grid indexing of
`place_agent(limpiador, (1, 1))` otherwise — not a parameter check. -/
theorem init_success_characterization (M N : ℤ) (K D : Nat) (r : Rng) :
    ((habitacionInit M N K D r).toOption ≠ none ↔
      (D ≤ (M * N).toNat ∧ (K = 0 ∨ (2 ≤ M ∧ 2 ≤ N)))) ∧
    ((M * N).toNat < D →
      habitacionInit M N K D r = Except.error PyError.valueError) ∧
    (D ≤ (M * N).toNat → K ≠ 0 → (M < 2 ∨ N < 2) →
      habitacionInit M N K D r = Except.error PyError.indexError) := by
  refine ⟨habitacionInit_isOk_iff M N K D r, ?_, ?_⟩
  · intro h; unfold habitacionInit; rw [if_neg (by omega)]
  · intro h1 h2 h3; unfold habitacionInit; rw [if_pos h1, if_pos ⟨h2, h3⟩]

theorem init_success_characterization_witness :
    habitacionInit 2 2 1 5 [] = Except.error PyError.valueError :=
  (init_success_characterization 2 2 1 5 []).2.1 (by decide)

/-! ## Claim C5: no move onto a pre-round-occupied coordinate -/

/-- 3-by-3 model, two cleaners at (1, 1), dirty cell at (2, 2). -/
def c5M0 : HabitacionModel := modelOf (habitacionInit 3 3 2 1 [8, 1, 0, 2, 0])

/-- State after round 1: cleaner 0 moved to (0, 1), cleaner 1 to (0, 0). -/
def c5M1 : HabitacionModel :=
  { c5M0 with
    core := { celdas := c5M0.core.celdas
              limps := [⟨0, (0, 1), 1⟩, ⟨1, (0, 0), 1⟩] }
    steps := 1
    collected := [(0, 0)] }

/-- State after round 2: cleaner 0 moved on to (1, 1) and cleaner 1 moved
onto (0, 1) — the coordinate cleaner 0 occupied in the round-2 pre-round
snapshot. -/
def c5M2 : HabitacionModel :=
  { c5M0 with
    core := { celdas := c5M0.core.celdas
              limps := [⟨0, (1, 1), 2⟩, ⟨1, (0, 1), 2⟩] }
    steps := 2
    collected := [(0, 0), (0, 2)] }

lemma c5contar0 : contar_celdas_limpias c5M0 = Except.ok 0 := by
  rw [contar_ok c5M0 (by decide),
    show celdasLimpiasCount c5M0 = 0 from by decide]
  norm_num

lemma c5contar1 : contar_celdas_limpias c5M1 = Except.ok 0 := by
  rw [contar_ok c5M1 (by decide),
    show celdasLimpiasCount c5M1 = 0 from by decide]
  norm_num

/-- C5 is false on the code: in round 2 of this run, cleaner 1 completes a
move onto (0, 1), which in the pre-round snapshot `c5M1` was occupied by the
other cleaner (id 0); the filter only saw the mid-round grid, from which
cleaner 0 had already departed. -/
theorem move_onto_snapshot_occupied_cex :
    habitacionInit 3 3 2 1 [8, 1, 0, 2, 0] = Except.ok (c5M0, [1, 0, 2, 0]) ∧
    habitacionStep c5M0 [1, 0, 2, 0] = Except.ok (c5M1, [2, 0]) ∧
    habitacionStep c5M1 [2, 0] = Except.ok (c5M2, []) ∧
    (c5M2.core.limps.getD 1 ⟨0, (0, 0), 0⟩).pos = (0, 1) ∧
    (c5M2.core.limps.getD 1 ⟨0, (0, 0), 0⟩).movimientos =
      (c5M1.core.limps.getD 1 ⟨0, (0, 0), 0⟩).movimientos + 1 ∧
    (c5M1.core.limps.getD 0 ⟨0, (0, 0), 0⟩).pos = (0, 1) ∧
    (c5M1.core.limps.getD 0 ⟨0, (0, 0), 0⟩).unique_id ≠
      (c5M1.core.limps.getD 1 ⟨0, (0, 0), 0⟩).unique_id := by
  refine ⟨by decide, ?_, ?_, by decide, by decide, by decide, by decide⟩
  · rw [habitacionStep_ok_lt c5contar0 (by norm_num)]
    decide
  · rw [habitacionStep_ok_lt c5contar1 (by norm_num)]
    decide

/-- C5 (amended): a cleaner never completes a move onto a coordinate that
holds another cleaner in the grid state at the moment of its own decision
(the mid-round state, not the pre-round snapshot). -/
theorem move_target_cleanerfree_at_decision (M N : ℤ) (c : Core) (i : Nat)
    (r : Rng) (l l2 : LimpiadorAgent)
    (h : c.limps.get? i = some l)
    (h2 : (agentStep M N c i r).1.limps.get? i = some l2)
    (hne : l2.pos ≠ l.pos) :
    hasLimpiador c.limps l2.pos = false := by
  have hlen : i < c.limps.length := by
    rcases List.get?_eq_some.mp h with ⟨hl, _⟩
    exact hl
  unfold agentStep decideStep at h2
  rw [h] at h2
  dsimp only at h2
  by_cases hd : hasDirtyCelda c.celdas l.pos
  · rw [if_pos hd] at h2
    simp only [applyAction] at h2
    rw [h] at h2
    exact absurd (by injection h2 with h3; rw [← h3]) hne
  · rw [if_neg hd] at h2
    set valid := (get_neighborhood M N l.pos).filter
      (fun p => !(hasLimpiador c.limps p)) with hv
    by_cases hz : valid.length = 0
    · rw [if_pos hz] at h2
      simp only [applyAction] at h2
      rw [h] at h2
      exact absurd (by injection h2 with h3; rw [← h3]) hne
    · rw [if_neg hz] at h2
      simp only [applyAction] at h2
      rw [h] at h2
      dsimp only at h2
      rw [List.get?_set_eq_of_lt _ hlen] at h2
      injection h2 with h3
      have hk : r.headD 0 % valid.length < valid.length :=
        Nat.mod_lt _ (Nat.pos_of_ne_zero hz)
      have hmem : valid.getD (r.headD 0 % valid.length) (0, 0) ∈ valid := by
        rw [List.getD_eq_get _ _ hk]
        exact List.get_mem _ _ _
      have hfree := (List.mem_filter.mp hmem).2
      rw [Bool.not_eq_true'] at hfree
      have hpos : l2.pos = valid.getD (r.headD 0 % valid.length) (0, 0) := by
        rw [← h3]
      rw [hpos]
      exact hfree

theorem move_target_cleanerfree_at_decision_witness :
    hasLimpiador (Core.mk [] [⟨0, (1, 1), 0⟩]).limps
      (LimpiadorAgent.mk 0 (0, 0) 1).pos = false :=
  move_target_cleanerfree_at_decision 3 3 (Core.mk [] [⟨0, (1, 1), 0⟩]) 0 [0]
    ⟨0, (1, 1), 0⟩ ⟨0, (0, 0), 1⟩ (by decide) (by decide) (by decide)

/-! ## Claim C9: positions stay in bounds -/

/-- C9: every cleaner of a freshly constructed model sits in bounds, and one
`HabitacionModel.step` preserves in-boundedness of every cleaner, because
every move target comes from the bounds-clipped `get_neighborhood`. -/
theorem limpiador_positions_in_bounds :
    (∀ (M N : ℤ) (K D : Nat) (r r2 : Rng) (m : HabitacionModel),
      habitacionInit M N K D r = Except.ok (m, r2) →
      ∀ l ∈ m.core.limps, inBounds m.M m.N l.pos = true) ∧
    (∀ (m m2 : HabitacionModel) (r r2 : Rng),
      (∀ l ∈ m.core.limps, inBounds m.M m.N l.pos = true) →
      habitacionStep m r = Except.ok (m2, r2) →
      ∀ l ∈ m2.core.limps, inBounds m2.M m2.N l.pos = true) := by
  constructor
  · intro M N K D r r2 m hok l hl
    unfold habitacionInit at hok
    by_cases h1 : D ≤ (M * N).toNat
    · rw [if_pos h1] at hok
      by_cases h2 : K ≠ 0 ∧ (M < 2 ∨ N < 2)
      · rw [if_pos h2] at hok; exact absurd hok (by simp)
      · rw [if_neg h2] at hok
        injection hok with hok2
        injection hok2 with hm hr
        subst hm
        dsimp only at hl ⊢
        unfold initLimps at hl
        rcases List.mem_map.mp hl with ⟨j, hj, rfl⟩
        dsimp only
        by_cases hK : K = 0
        · subst hK; simp at hj
        · push_neg at h2
          have := h2 hK
          unfold inBounds
          simp only [decide_eq_true_eq]
          refine ⟨by omega, by omega, by omega, by omega⟩
    · rw [if_neg h1] at hok; exact absurd hok (by simp)
  · intro m m2 r r2 h hok l hl
    unfold habitacionStep at hok
    rcases hc : contar_celdas_limpias m with e | pct
    · rw [hc] at hok; exact absurd hok (by simp)
    · rw [hc] at hok
      dsimp only at hok
      by_cases hge : 100 ≤ pct
      · rw [if_pos hge] at hok
        injection hok with hok2
        injection hok2 with hm hr
        subst hm
        exact h l hl
      · rw [if_neg hge] at hok
        injection hok with hok2
        injection hok2 with hm hr
        subst hm
        dsimp only at hl ⊢
        exact runOrder_inBounds m.M m.N _ m.core r h l hl

theorem limpiador_positions_in_bounds_witness :
    inBounds (modelOf (habitacionInit 3 3 2 1 [4])).M
      (modelOf (habitacionInit 3 3 2 1 [4])).N
      (LimpiadorAgent.mk 0 (1, 1) 0).pos = true :=
  limpiador_positions_in_bounds.1 3 3 2 1 [4] []
    (modelOf (habitacionInit 3 3 2 1 [4])) (by decide)
    ⟨0, (1, 1), 0⟩ (by decide)

/-! ## Claim C10: hidden 2-by-2 precondition -/

/-- C10 is false as stated: with zero cleaners nothing is ever placed at
(1, 1), so the 1-by-1 construction succeeds even though M ≤ 1 and N ≤ 1. -/
theorem small_grid_zero_agents_init_ok_cex :
    (habitacionInit 1 1 0 1 [0]).toOption ≠ none := by decide

/-- C10 (amended): the hidden precondition applies only when at least one
cleaner is requested: then any dimension below 2 makes construction fail,
while for dimensions at least 2 and a feasible dirty count construction
succeeds. -/
theorem init_agents_need_two_by_two (M N : ℤ) (K D : Nat) (r : Rng) :
    (1 ≤ K → (M ≤ 1 ∨ N ≤ 1) → (habitacionInit M N K D r).toOption = none) ∧
    (2 ≤ M → 2 ≤ N → D ≤ (M * N).toNat →
      (habitacionInit M N K D r).toOption ≠ none) := by
  constructor
  · intro hK hMN
    by_cases h : (habitacionInit M N K D r).toOption = none
    · exact h
    · exfalso
      have h2 := (habitacionInit_isOk_iff M N K D r).mp h
      omega
  · intro hM hN hD
    rw [habitacionInit_isOk_iff]
    exact ⟨hD, Or.inr ⟨hM, hN⟩⟩

theorem init_agents_need_two_by_two_witness :
    (habitacionInit 1 3 1 0 []).toOption = none ∧
    (habitacionInit 2 2 3 4 []).toOption ≠ none :=
  ⟨(init_agents_need_two_by_two 1 3 1 0 []).1 (by decide) (by decide),
   (init_agents_need_two_by_two 2 2 3 4 []).2 (by decide) (by decide) (by decide)⟩

/-! ## Claim C4: termination at full cleanliness is absorbing -/

/-- C4: when the metric evaluates to at least 100 the step sets `running`
to false and returns with the grid contents and step counter untouched, and
the terminated state is absorbing: stepping it again only re-collects the
(unchanged) metrics and re-asserts `running = false`, leaving the cells,
cleaners and step counter unchanged; when the metric is below 100 the step
leaves `running` as it was. -/
theorem step_terminates_at_full_clean (m : HabitacionModel) (r : Rng) (pct : ℚ)
    (h : contar_celdas_limpias m = Except.ok pct) :
    (100 ≤ pct →
      habitacionStep m r =
        Except.ok ({ m with
          collected := m.collected ++ [(pct, contar_movimientos m)]
          running := false }, r)) ∧
    (∀ m2 r2, habitacionStep m r = Except.ok (m2, r2) → 100 ≤ pct →
      m2.running = false ∧ m2.core = m.core ∧ m2.steps = m.steps ∧
      ∀ r3, habitacionStep m2 r3 =
        Except.ok ({ m2 with
          collected := m2.collected ++ [(pct, contar_movimientos m2)]
          running := false }, r3)) ∧
    (∀ m2 r2, habitacionStep m r = Except.ok (m2, r2) → pct < 100 →
      m2.running = m.running) := by
  refine ⟨fun hge => habitacionStep_ok_ge h hge, ?_, ?_⟩
  · intro m2 r2 hok hge
    rw [habitacionStep_ok_ge h hge] at hok
    injection hok with hok2
    injection hok2 with hm hr
    subst hm
    refine ⟨rfl, rfl, rfl, ?_⟩
    intro r3
    exact habitacionStep_ok_ge (m := { m with
      collected := m.collected ++ [(pct, contar_movimientos m)]
      running := false }) h hge
  · intro m2 r2 hok hlt
    rw [habitacionStep_ok_lt h hlt] at hok
    injection hok with hok2
    injection hok2 with hm hr
    subst hm
    rfl

def c4Model : HabitacionModel :=
  { M := 1, N := 1, num_agentes := 0, celdas_sucias := 1
    core := { celdas := [⟨0, (0, 0), false⟩], limps := [] }
    dirty_positions := [(0, 0)], running := true, steps := 5, collected := [] }

lemma c4contar : contar_celdas_limpias c4Model = Except.ok 100 := by
  rw [contar_ok c4Model (by decide),
    show celdasLimpiasCount c4Model = 1 from by decide,
    show c4Model.celdas_sucias = 1 from rfl]
  norm_num

theorem step_terminates_at_full_clean_witness :
    habitacionStep c4Model [] =
      Except.ok ({ c4Model with
        collected := [((100 : ℚ), 0)]
        running := false }, []) ∧
    (modelOf (habitacionStep c4Model [])).steps = c4Model.steps :=
  ⟨(step_terminates_at_full_clean c4Model [] 100 c4contar).1 (by norm_num),
   by
    rw [(step_terminates_at_full_clean c4Model [] 100 c4contar).1 (by norm_num)]
    rfl⟩

/-! ## Claim C6: monotonicity of the clean fraction -/

/-- New cell against old cell after some evolution: identity and position
unchanged, and a cell dirty afterwards was already dirty before. -/
def CeldaLE (a b : CeldaAgent) : Prop :=
  b.unique_id = a.unique_id ∧ b.pos = a.pos ∧ (b.sucia = true → a.sucia = true)

lemma celdaLE_refl (a : CeldaAgent) : CeldaLE a a := ⟨rfl, rfl, id⟩

lemma forall2_celdaLE_refl (l : List CeldaAgent) : List.Forall₂ CeldaLE l l :=
  List.forall₂_same.mpr (fun a _ => celdaLE_refl a)

lemma forall2_celdaLE_trans {a b c : List CeldaAgent}
    (h1 : List.Forall₂ CeldaLE a b) (h2 : List.Forall₂ CeldaLE b c) :
    List.Forall₂ CeldaLE a c := by
  induction h1 generalizing c with
  | nil => cases h2; exact List.Forall₂.nil
  | cons hab t ih =>
    cases h2 with
    | cons hbc t2 =>
      exact List.Forall₂.cons
        ⟨hbc.1.trans hab.1, hbc.2.1.trans hab.2.1, fun hs => hab.2.2 (hbc.2.2 hs)⟩
        (ih t2)

lemma cleanAt_celdaLE (l : List CeldaAgent) (p : Pos) :
    List.Forall₂ CeldaLE l (cleanAt l p) := by
  unfold cleanAt
  rw [List.forall₂_map_right_iff]
  rw [List.forall₂_same]
  intro a _
  by_cases hc : (a.pos = p ∧ a.sucia = true)
  · rw [if_pos hc]
    exact ⟨rfl, rfl, fun hs => by simp [limpiar] at hs⟩
  · rw [if_neg hc]
    exact celdaLE_refl a

lemma agentStep_celdaLE (M N : ℤ) (c : Core) (i : Nat) (r : Rng) :
    List.Forall₂ CeldaLE c.celdas (agentStep M N c i r).1.celdas := by
  unfold agentStep decideStep
  rcases hg : c.limps.get? i with _ | l0
  · exact forall2_celdaLE_refl _
  · dsimp only
    by_cases hd : hasDirtyCelda c.celdas l0.pos
    · rw [if_pos hd]
      simp only [applyAction]
      exact cleanAt_celdaLE _ _
    · rw [if_neg hd]
      set valid := (get_neighborhood M N l0.pos).filter
        (fun p => !(hasLimpiador c.limps p)) with hv
      by_cases hz : valid.length = 0
      · rw [if_pos hz]
        exact forall2_celdaLE_refl _
      · rw [if_neg hz]
        simp only [applyAction]
        rw [hg]
        exact forall2_celdaLE_refl _

lemma runOrder_celdaLE (M N : ℤ) (order : List Nat) (c : Core) (r : Rng) :
    List.Forall₂ CeldaLE c.celdas (runOrder M N order (c, r)).1.celdas := by
  induction order generalizing c r with
  | nil => exact forall2_celdaLE_refl _
  | cons i t ih =>
    have heq : runOrder M N (i :: t) (c, r) =
        runOrder M N t ((agentStep M N c i r).1, (agentStep M N c i r).2) := rfl
    rw [heq]
    exact forall2_celdaLE_trans (agentStep_celdaLE M N c i r)
      (ih (agentStep M N c i r).1 (agentStep M N c i r).2)

lemma filter_length_le_of_celdaLE {a b : List CeldaAgent}
    (h : List.Forall₂ CeldaLE a b) (p : Pos) :
    (a.filter (fun c => decide (c.pos = p ∧ c.sucia = false))).length ≤
      (b.filter (fun c => decide (c.pos = p ∧ c.sucia = false))).length := by
  induction h with
  | nil => exact le_refl _
  | cons hab t ih =>
    rename_i a0 b0 t1 t2
    rw [List.filter_cons, List.filter_cons]
    by_cases ha : (a0.pos = p ∧ a0.sucia = false)
    · have hb : (b0.pos = p ∧ b0.sucia = false) := by
        refine ⟨hab.2.1.trans ha.1, ?_⟩
        cases hb0 : b0.sucia
        · rfl
        · exact absurd (hab.2.2 hb0) (by rw [ha.2]; simp)
      rw [decide_eq_true ha, decide_eq_true hb]
      show (a0 :: List.filter _ t1).length ≤ (b0 :: List.filter _ t2).length
      simp only [List.length_cons]
      omega
    · rw [decide_eq_false ha]
      by_cases hb : (b0.pos = p ∧ b0.sucia = false)
      · rw [decide_eq_true hb]
        show (List.filter _ t1).length ≤ (b0 :: List.filter _ t2).length
        simp only [List.length_cons]
        omega
      · rw [decide_eq_false hb]
        show (List.filter _ t1).length ≤ (List.filter _ t2).length
        exact ih

lemma celdasLimpiasCount_mono {m m2 : HabitacionModel}
    (hdp : m2.dirty_positions = m.dirty_positions)
    (hf : List.Forall₂ CeldaLE m.core.celdas m2.core.celdas) :
    celdasLimpiasCount m ≤ celdasLimpiasCount m2 := by
  unfold celdasLimpiasCount
  rw [hdp]
  apply List.sum_le_sum
  intro p _
  exact filter_length_le_of_celdaLE hf p

/-- C6: `limpiar` is idempotent, a no-op on clean cells, and the clean
percentage is non-decreasing across any successful step, because a step can
only turn dirty cells clean. -/
theorem clean_fraction_monotone :
    (∀ cd : CeldaAgent, limpiar (limpiar cd) = limpiar cd) ∧
    (∀ cd : CeldaAgent, cd.sucia = false → limpiar cd = cd) ∧
    (∀ (m m2 : HabitacionModel) (r r2 : Rng) (p q : ℚ),
      habitacionStep m r = Except.ok (m2, r2) →
      contar_celdas_limpias m = Except.ok p →
      contar_celdas_limpias m2 = Except.ok q → p ≤ q) := by
  refine ⟨fun cd => rfl, ?_, ?_⟩
  · intro cd h
    cases cd
    dsimp only at h
    subst h
    rfl
  · intro m m2 r r2 p q hok hp hq
    have hD : m.celdas_sucias ≠ 0 := by
      intro h0
      unfold contar_celdas_limpias at hp
      rw [if_pos h0] at hp
      exact absurd hp (by simp)
    unfold habitacionStep at hok
    rw [hp] at hok
    dsimp only at hok
    by_cases hge : 100 ≤ p
    · rw [if_pos hge] at hok
      injection hok with hok2
      injection hok2 with hm hr
      subst hm
      have hq2 : contar_celdas_limpias m = Except.ok q := hq
      rw [hp] at hq2
      injection hq2 with hq3
      rw [hq3]
    · rw [if_neg hge] at hok
      injection hok with hok2
      injection hok2 with hm hr
      subst hm
      rw [contar_ok m hD] at hp
      injection hp with hp2
      have hD2 : ({ m with
          collected := m.collected ++ [(p, contar_movimientos m)]
          core := (runOrder m.M m.N (List.range m.core.limps.length) (m.core, r)).1
          steps := m.steps + 1 } : HabitacionModel).celdas_sucias ≠ 0 := hD
      rw [contar_ok _ hD2] at hq
      injection hq with hq2
      rw [← hp2, ← hq2]
      have hcount : celdasLimpiasCount m ≤ celdasLimpiasCount { m with
          collected := m.collected ++ [(p, contar_movimientos m)]
          core := (runOrder m.M m.N (List.range m.core.limps.length) (m.core, r)).1
          steps := m.steps + 1 } :=
        celdasLimpiasCount_mono rfl
          (runOrder_celdaLE m.M m.N (List.range m.core.limps.length) m.core r)
      have hcast : (celdasLimpiasCount m : ℚ) ≤
          (celdasLimpiasCount { m with
            collected := m.collected ++ [(p, contar_movimientos m)]
            core := (runOrder m.M m.N (List.range m.core.limps.length) (m.core, r)).1
            steps := m.steps + 1 } : ℚ) := by
        exact_mod_cast hcount
      gcongr

/-- The model after the round of `c1Model`: the single dirty cell at (1, 1)
was cleaned by cleaner 0, cleaner 1 then moved to (0, 0). -/
def c6M2 : HabitacionModel :=
  { c1Model with
    core := { celdas := [⟨0, (0, 0), false⟩, ⟨1, (0, 1), false⟩,
                ⟨2, (0, 2), false⟩, ⟨3, (1, 0), false⟩, ⟨4, (1, 1), false⟩,
                ⟨5, (1, 2), false⟩, ⟨6, (2, 0), false⟩, ⟨7, (2, 1), false⟩,
                ⟨8, (2, 2), false⟩]
              limps := [⟨0, (1, 1), 0⟩, ⟨1, (0, 0), 1⟩] }
    steps := 1
    collected := [(0, 0)] }

lemma c6step : habitacionStep c1Model [] = Except.ok (c6M2, []) := by
  rw [habitacionStep_ok_lt c1contar (by norm_num)]
  decide

lemma c6contar2 : contar_celdas_limpias c6M2 = Except.ok 100 := by
  rw [contar_ok c6M2 (by decide),
    show celdasLimpiasCount c6M2 = 1 from by decide,
    show c6M2.celdas_sucias = 1 from rfl]
  norm_num

theorem clean_fraction_monotone_witness :
    habitacionStep c1Model [] = Except.ok (c6M2, []) ∧
    contar_celdas_limpias c1Model = Except.ok 0 ∧
    contar_celdas_limpias c6M2 = Except.ok 100 ∧
    limpiar ⟨0, (0, 0), false⟩ = ⟨0, (0, 0), false⟩ ∧
    (0 : ℚ) ≤ 100 :=
  ⟨c6step, c1contar, c6contar2,
   clean_fraction_monotone.2.1 ⟨0, (0, 0), false⟩ rfl,
   clean_fraction_monotone.2.2 c1Model c6M2 [] [] 0 100 c6step c1contar c6contar2⟩

/-! ## Claim C7: the per-step decision rule -/

/-- Spec wording of a legal move target: an in-bounds Moore neighbor
(diagonals included, the center excluded) whose occupants include no
cleaner. -/
def specValidMove (M N : ℤ) (c : Core) (l : LimpiadorAgent) (p : Pos) : Prop :=
  inBounds M N p = true ∧ p ≠ l.pos ∧ (p.1 - l.pos.1).natAbs ≤ 1 ∧
    (p.2 - l.pos.2).natAbs ≤ 1 ∧ ∀ a ∈ c.limps, a.pos ≠ p

lemma hasDirtyCelda_iff {celdas : List CeldaAgent} {p : Pos} :
    hasDirtyCelda celdas p = true ↔
      ∃ cd ∈ celdas, cd.pos = p ∧ cd.sucia = true := by
  unfold hasDirtyCelda
  rw [List.any_eq_true]
  simp

lemma mem_valid_iff {M N : ℤ} {c : Core} {l : LimpiadorAgent} {p : Pos} :
    p ∈ (get_neighborhood M N l.pos).filter (fun q => !(hasLimpiador c.limps q)) ↔
      specValidMove M N c l p := by
  rw [List.mem_filter, mem_get_neighborhood]
  unfold specValidMove hasLimpiador
  constructor
  · rintro ⟨⟨hb, hne, h1, h2⟩, hf⟩
    refine ⟨hb, hne, h1, h2, ?_⟩
    intro a ha hpa
    rw [Bool.not_eq_true', List.any_eq_false] at hf
    exact absurd (decide_eq_true hpa) (by simpa using hf a ha)
  · rintro ⟨hb, hne, h1, h2, hfree⟩
    refine ⟨⟨hb, hne, h1, h2⟩, ?_⟩
    rw [Bool.not_eq_true', List.any_eq_false]
    intro a ha
    simp only [decide_eq_true_eq]
    exact hfree a ha

lemma cleanAt_eq_map (l : List CeldaAgent) (p : Pos) :
    cleanAt l p = l.map (fun cd => if cd.pos = p then { cd with sucia := false } else cd) := by
  unfold cleanAt
  apply List.map_congr_left
  intro cd _
  by_cases h1 : cd.pos = p
  · by_cases h2 : cd.sucia = true
    · rw [if_pos ⟨h1, h2⟩, if_pos h1]; rfl
    · rw [if_neg (by tauto), if_pos h1]
      cases cd with
      | mk u q s =>
        dsimp only at h2 ⊢
        cases s
        · rfl
        · exact absurd rfl h2
  · rw [if_neg (by tauto), if_neg h1]

lemma applyAction_moverA_of_get {c : Core} {i : Nat} {l : LimpiadorAgent}
    (h : c.limps.get? i = some l) (p : Pos) :
    applyAction c (AgentAction.moverA i p) =
      { c with limps := c.limps.set i { l with pos := p, movimientos := l.movimientos + 1 } } := by
  unfold applyAction
  dsimp only
  rw [h]

/-- C7: the decision rule of one cleaner step, stated against the spec-side
predicates.  If a dirt cell at the agent's coordinate is dirty, all dirt
cells there are cleaned and neither position, counter nor random source
changes; otherwise the cells are untouched and the agent moves to a
`specValidMove` target (incrementing its counter by exactly one) when one
exists — every such target being reachable under some random source, the
oracle counterpart of the uniform choice — and stays put doing nothing when
none exists. -/
theorem limpiador_decision_rule (M N : ℤ) (c : Core) (i : Nat) (r : Rng)
    (l : LimpiadorAgent) (h : c.limps.get? i = some l) :
    ((∃ cd ∈ c.celdas, cd.pos = l.pos ∧ cd.sucia = true) →
      (agentStep M N c i r).1.limps = c.limps ∧
      (agentStep M N c i r).2 = r ∧
      (agentStep M N c i r).1.celdas =
        c.celdas.map (fun cd =>
          if cd.pos = l.pos then { cd with sucia := false } else cd)) ∧
    ((¬ ∃ cd ∈ c.celdas, cd.pos = l.pos ∧ cd.sucia = true) →
      (agentStep M N c i r).1.celdas = c.celdas ∧
      ((¬ ∃ p, specValidMove M N c l p) → agentStep M N c i r = (c, r)) ∧
      ((∃ p, specValidMove M N c l p) →
        ∃ p, specValidMove M N c l p ∧
          (agentStep M N c i r).1.limps =
            c.limps.set i { l with pos := p, movimientos := l.movimientos + 1 } ∧
          ∀ q, specValidMove M N c l q →
            ∃ r2, (agentStep M N c i r2).1.limps =
              c.limps.set i { l with pos := q, movimientos := l.movimientos + 1 })) := by
  constructor
  · intro hdirty
    have hd : hasDirtyCelda c.celdas l.pos = true := hasDirtyCelda_iff.mpr hdirty
    unfold agentStep decideStep
    rw [h]
    dsimp only
    rw [if_pos hd]
    exact ⟨rfl, rfl, cleanAt_eq_map c.celdas l.pos⟩
  · intro hnodirty
    have hd : ¬ hasDirtyCelda c.celdas l.pos = true := fun hx =>
      hnodirty (hasDirtyCelda_iff.mp hx)
    set valid := (get_neighborhood M N l.pos).filter
      (fun p => !(hasLimpiador c.limps p)) with hv
    refine ⟨?_, ?_, ?_⟩
    · unfold agentStep decideStep
      rw [h]
      dsimp only
      rw [if_neg hd, ← hv]
      by_cases hz : valid.length = 0
      · rw [if_pos hz]; rfl
      · rw [if_neg hz]
        dsimp only
        rw [applyAction_moverA_of_get h]
    · intro hnone
      have hnil : valid = [] := by
        rw [List.eq_nil_iff_forall_not_mem]
        intro p hp
        rw [hv] at hp
        exact hnone ⟨p, mem_valid_iff.mp hp⟩
      unfold agentStep decideStep
      rw [h]
      dsimp only
      rw [if_neg hd, ← hv, if_pos (by rw [hnil]; rfl)]
      rfl
    · intro hsome
      have hz : valid.length ≠ 0 := by
        rcases hsome with ⟨p, hp⟩
        intro h0
        rw [List.length_eq_zero] at h0
        have hpm : p ∈ valid := by rw [hv]; exact mem_valid_iff.mpr hp
        rw [h0] at hpm
        exact List.not_mem_nil p hpm
      have hk : r.headD 0 % valid.length < valid.length :=
        Nat.mod_lt _ (Nat.pos_of_ne_zero hz)
      refine ⟨valid.getD (r.headD 0 % valid.length) (0, 0), ?_, ?_, ?_⟩
      · apply mem_valid_iff.mp
        rw [← hv]
        rw [List.getD_eq_get _ _ hk]
        exact List.get_mem _ _ _
      · unfold agentStep decideStep
        rw [h]
        dsimp only
        rw [if_neg hd, ← hv, if_neg hz]
        dsimp only
        rw [applyAction_moverA_of_get h]
      · intro q hq
        have hqm : q ∈ valid := by rw [hv]; exact mem_valid_iff.mpr hq
        rcases List.mem_iff_get.mp hqm with ⟨⟨j, hj⟩, hget⟩
        refine ⟨[j], ?_⟩
        unfold agentStep decideStep
        rw [h]
        dsimp only
        rw [if_neg hd, ← hv, if_neg hz]
        dsimp only
        rw [applyAction_moverA_of_get h]
        have hhead : ([j] : Rng).headD 0 = j := rfl
        rw [hhead, Nat.mod_eq_of_lt hj, List.getD_eq_get _ _ hj, hget]

theorem limpiador_decision_rule_witness :
    (agentStep 3 3 (Core.mk [⟨0, (1, 1), true⟩] [⟨0, (1, 1), 0⟩]) 0 []).1.limps =
      [⟨0, (1, 1), 0⟩] ∧
    (agentStep 3 3 (Core.mk [⟨0, (1, 1), true⟩] [⟨0, (1, 1), 0⟩]) 0 []).2 = [] ∧
    (agentStep 3 3 (Core.mk [⟨0, (1, 1), true⟩] [⟨0, (1, 1), 0⟩]) 0 []).1.celdas =
      [(⟨0, (1, 1), true⟩ : CeldaAgent)].map (fun cd =>
        if cd.pos = (1, 1) then { cd with sucia := false } else cd) :=
  (limpiador_decision_rule 3 3 (Core.mk [⟨0, (1, 1), true⟩] [⟨0, (1, 1), 0⟩]) 0 []
    ⟨0, (1, 1), 0⟩ (by decide)).1 (by decide)

/-! ## Claim C8: the constructed initial state -/

lemma sampleAux_spec : ∀ (k : Nat) (pool : List Nat) (r : Rng), pool.Nodup →
    k ≤ pool.length →
    (sampleAux k pool r).1.Nodup ∧ (sampleAux k pool r).1.length = k ∧
      ∀ x ∈ (sampleAux k pool r).1, x ∈ pool := by
  intro k
  induction k with
  | zero =>
    intro pool r _ _
    refine ⟨List.nodup_nil, rfl, ?_⟩
    intro x hx
    simp [sampleAux] at hx
  | succ k ih =>
    intro pool r hnd hle
    have hpos : 0 < pool.length := by omega
    have hik : r.headD 0 % pool.length < pool.length := Nat.mod_lt _ hpos
    have hrest_nodup : (pool.eraseIdx (r.headD 0 % pool.length)).Nodup :=
      (List.eraseIdx_sublist pool (r.headD 0 % pool.length)).nodup hnd
    have hlen : (pool.eraseIdx (r.headD 0 % pool.length)).length =
        pool.length - 1 := List.length_eraseIdx_of_lt hik
    obtain ⟨ih1, ih2, ih3⟩ := ih (pool.eraseIdx (r.headD 0 % pool.length)) r.tail
      hrest_nodup (by omega)
    unfold sampleAux
    dsimp only
    refine ⟨?_, ?_, ?_⟩
    · rw [List.nodup_cons]
      refine ⟨?_, ih1⟩
      intro hmem
      have hx2 := ih3 _ hmem
      rcases List.mem_eraseIdx_iff_get?.mp hx2 with ⟨j, hjne, hjget⟩
      have hjlt : j < pool.length := by
        rcases List.get?_eq_some.mp hjget with ⟨hl, _⟩
        exact hl
      rw [List.get?_eq_get hjlt] at hjget
      injection hjget with he
      rw [List.getD_eq_get _ _ hik] at he
      have hinj := List.nodup_iff_injective_get.mp hnd he
      rw [Fin.mk.injEq] at hinj
      exact hjne hinj
    · rw [List.length_cons, ih2]
    · intro x hx
      rcases List.mem_cons.mp hx with rfl | hx2
      · rw [List.getD_eq_get _ _ hik]
        exact List.get_mem _ _ _
      · exact (List.eraseIdx_sublist pool (r.headD 0 % pool.length)).mem (ih3 x hx2)

lemma sample_range_spec (n k : Nat) (r : Rng) (hk : k ≤ n) :
    (sampleAux k (List.range n) r).1.Nodup ∧
    (sampleAux k (List.range n) r).1.length = k ∧
      ∀ x ∈ (sampleAux k (List.range n) r).1, x < n := by
  obtain ⟨h1, h2, h3⟩ := sampleAux_spec k (List.range n) r (List.nodup_range _)
    (by rw [List.length_range]; exact hk)
  exact ⟨h1, h2, fun x hx => List.mem_range.mp (h3 x hx)⟩

lemma mem_initCeldas {M N : ℤ} {s : List Nat} {cd : CeldaAgent} :
    cd ∈ initCeldas M N s ↔
      ∃ i j : Nat, i < M.toNat ∧ j < N.toNat ∧
        cd = ⟨i * N.toNat + j, ((i : ℤ), (j : ℤ)),
          decide (i * N.toNat + j ∈ s)⟩ := by
  unfold initCeldas
  rw [List.mem_flatMap]
  constructor
  · rintro ⟨i, hi, hmem⟩
    rcases List.mem_map.mp hmem with ⟨j, hj, rfl⟩
    exact ⟨i, j, List.mem_range.mp hi, List.mem_range.mp hj, rfl⟩
  · rintro ⟨i, j, hi, hj, rfl⟩
    exact ⟨i, List.mem_range.mpr hi, List.mem_map.mpr ⟨j, List.mem_range.mpr hj, rfl⟩⟩

lemma initCeldas_map_uid (M N : ℤ) (s : List Nat) :
    (initCeldas M N s).map (fun c => c.unique_id) =
      (List.range M.toNat).flatMap (fun i =>
        (List.range N.toNat).map (fun j => i * N.toNat + j)) := by
  unfold initCeldas
  rw [List.map_flatMap]
  simp only [List.map_map]
  rfl

lemma initCeldas_map_pos (M N : ℤ) (s : List Nat) :
    (initCeldas M N s).map (fun c => c.pos) =
      (List.range M.toNat).flatMap (fun i =>
        (List.range N.toNat).map (fun j => (((i : Nat) : ℤ), ((j : Nat) : ℤ)))) := by
  unfold initCeldas
  rw [List.map_flatMap]
  simp only [List.map_map]
  rfl

lemma initCeldas_uid_nodup (M N : ℤ) (s : List Nat) :
    ((initCeldas M N s).map (fun c => c.unique_id)).Nodup := by
  rw [initCeldas_map_uid]
  rw [List.nodup_flatMap]
  constructor
  · intro i _
    exact List.Nodup.map (fun a b hab => by omega) (List.nodup_range _)
  · apply (List.pairwise_lt_range M.toNat).imp
    intro i1 i2 hlt x hx1 hx2
    rcases List.mem_map.mp hx1 with ⟨j1, hj1, rfl⟩
    rcases List.mem_map.mp hx2 with ⟨j2, hj2, he⟩
    rw [List.mem_range] at hj1 hj2
    have h2 : (i1 + 1) * N.toNat ≤ i2 * N.toNat :=
      Nat.mul_le_mul_right _ (by omega)
    rw [Nat.succ_mul] at h2
    omega

lemma initCeldas_pos_nodup (M N : ℤ) (s : List Nat) :
    ((initCeldas M N s).map (fun c => c.pos)).Nodup := by
  rw [initCeldas_map_pos]
  rw [List.nodup_flatMap]
  constructor
  · intro i _
    refine List.Nodup.map ?_ (List.nodup_range _)
    intro a b hab
    simp only [Prod.mk.injEq] at hab
    exact_mod_cast hab.2
  · apply (List.pairwise_lt_range M.toNat).imp
    intro i1 i2 hlt x hx1 hx2
    rcases List.mem_map.mp hx1 with ⟨j1, hj1, rfl⟩
    rcases List.mem_map.mp hx2 with ⟨j2, hj2, he⟩
    simp only [Prod.mk.injEq] at he
    have : i2 = i1 := by exact_mod_cast he.1
    omega

lemma initCeldas_pos_inj {M N : ℤ} {s : List Nat} {cd1 cd2 : CeldaAgent}
    (h1 : cd1 ∈ initCeldas M N s) (h2 : cd2 ∈ initCeldas M N s)
    (hp : cd1.pos = cd2.pos) : cd1 = cd2 := by
  rcases mem_initCeldas.mp h1 with ⟨i1, j1, hi1, hj1, rfl⟩
  rcases mem_initCeldas.mp h2 with ⟨i2, j2, hi2, hj2, rfl⟩
  simp only [Prod.mk.injEq] at hp
  have hi : i1 = i2 := by exact_mod_cast hp.1
  have hj : j1 = j2 := by exact_mod_cast hp.2
  subst hi
  subst hj
  rfl

lemma initCeldas_filter_uid_mem {M N : ℤ} {s : List Nat}
    (hmn : ∀ x ∈ s, x < M.toNat * N.toNat) (u : Nat) :
    u ∈ ((initCeldas M N s).filter (fun c => c.sucia)).map (fun c => c.unique_id) ↔
      u ∈ s := by
  rw [List.mem_map]
  constructor
  · rintro ⟨cd, hcd, rfl⟩
    rw [List.mem_filter] at hcd
    rcases mem_initCeldas.mp hcd.1 with ⟨i, j, hi, hj, rfl⟩
    exact of_decide_eq_true hcd.2
  · intro hu
    have hun : u < M.toNat * N.toNat := hmn u hu
    have hN : 0 < N.toNat := by
      by_contra h0
      have hz : N.toNat = 0 := by omega
      rw [hz, Nat.mul_zero] at hun
      omega
    have he : u / N.toNat * N.toNat + u % N.toNat = u := by
      rw [Nat.mul_comm]
      exact Nat.div_add_mod u N.toNat
    have hi : u / N.toNat < M.toNat := by
      rw [Nat.div_lt_iff_lt_mul hN]
      omega
    refine ⟨⟨u, (((u / N.toNat : Nat) : ℤ), ((u % N.toNat : Nat) : ℤ)),
      decide (u ∈ s)⟩, ?_, rfl⟩
    rw [List.mem_filter]
    refine ⟨mem_initCeldas.mpr ⟨u / N.toNat, u % N.toNat, hi, Nat.mod_lt _ hN, ?_⟩, ?_⟩
    · rw [he]
    · exact decide_eq_true hu

lemma dirty_positions_nodup (M N : ℤ) (s : List Nat) :
    ((((initCeldas M N s).filter (fun c => c.sucia)).map (fun c => c.pos))).Nodup :=
  ((List.filter_sublist _).map _).nodup (initCeldas_pos_nodup M N s)

lemma dirty_positions_length {M N : ℤ} {s : List Nat} (hnd : s.Nodup)
    (hmn : ∀ x ∈ s, x < M.toNat * N.toNat) :
    (((initCeldas M N s).filter (fun c => c.sucia)).map (fun c => c.pos)).length =
      s.length := by
  have h1 : (((initCeldas M N s).filter (fun c => c.sucia)).map
      (fun c => c.unique_id)).Nodup :=
    ((List.filter_sublist _).map _).nodup (initCeldas_uid_nodup M N s)
  have hperm := (List.perm_ext_iff_of_nodup h1 hnd).mpr
    (fun u => initCeldas_filter_uid_mem hmn u)
  have h2 := hperm.length_eq
  rw [List.length_map] at h2
  rw [List.length_map]
  exact h2

lemma initCeldas_sucia_iff {M N : ℤ} {s : List Nat} {cd : CeldaAgent}
    (hcd : cd ∈ initCeldas M N s) :
    cd.sucia = true ↔
      cd.pos ∈ ((initCeldas M N s).filter (fun c => c.sucia)).map (fun c => c.pos) := by
  constructor
  · intro hs
    exact List.mem_map.mpr ⟨cd, List.mem_filter.mpr ⟨hcd, hs⟩, rfl⟩
  · intro hp
    rcases List.mem_map.mp hp with ⟨cd2, hcd2, hpos⟩
    rw [List.mem_filter] at hcd2
    have he : cd2 = cd := initCeldas_pos_inj hcd2.1 hcd hpos
    rw [← he]
    exact hcd2.2

lemma contar_init_zero {M N : ℤ} {s : List Nat} (m : HabitacionModel)
    (hD : m.celdas_sucias ≠ 0)
    (hceldas : m.core.celdas = initCeldas M N s)
    (hdp : m.dirty_positions =
      ((initCeldas M N s).filter (fun c => c.sucia)).map (fun c => c.pos)) :
    contar_celdas_limpias m = Except.ok 0 := by
  rw [contar_ok m hD]
  have hcount : celdasLimpiasCount m = 0 := by
    unfold celdasLimpiasCount
    rw [hceldas, hdp]
    apply List.sum_eq_zero
    intro x hx
    rcases List.mem_map.mp hx with ⟨p, hp, rfl⟩
    rw [List.length_eq_zero, List.filter_eq_nil_iff]
    intro cd hcd hpred
    rw [decide_eq_true_eq] at hpred
    obtain ⟨hpos, hsuc⟩ := hpred
    have hdirty := (initCeldas_sucia_iff hcd).mpr (by rw [hpos]; exact hp)
    rw [hdirty] at hsuc
    exact absurd hsuc (by simp)
  rw [hcount]
  norm_num

lemma habitacionStep_preserves_dirty (m2 m3 : HabitacionModel) (r3 r4 : Rng)
    (hstep : habitacionStep m2 r3 = Except.ok (m3, r4)) :
    m3.dirty_positions = m2.dirty_positions ∧
    m3.celdas_sucias = m2.celdas_sucias := by
  unfold habitacionStep at hstep
  rcases hc : contar_celdas_limpias m2 with e | pct
  · rw [hc] at hstep; exact absurd hstep (by simp)
  · rw [hc] at hstep
    dsimp only at hstep
    by_cases hge : 100 ≤ pct
    · rw [if_pos hge] at hstep
      injection hstep with h5
      injection h5 with h6 h7
      rw [← h6]
      exact ⟨rfl, rfl⟩
    · rw [if_neg hge] at hstep
      injection hstep with h5
      injection h5 with h6 h7
      rw [← h6]
      exact ⟨rfl, rfl⟩

/-- C8: immediately after a successful construction with positive dimensions,
the recorded dirty set has exactly `D` distinct coordinates, a cell is dirty
iff its coordinate was recorded, the metric is 0 when `D > 0`, every cleaner
sits at (1, 1) with counter 0, and no step ever mutates the recorded dirty
set (nor the stored `celdas_sucias` denominator). -/
theorem init_establishes_state (M N : ℤ) (K D : Nat) (r r2 : Rng)
    (m : HabitacionModel) (hM : 0 < M) (hN : 0 < N)
    (hok : habitacionInit M N K D r = Except.ok (m, r2)) :
    m.dirty_positions.Nodup ∧
    m.dirty_positions.length = D ∧
    (∀ cd ∈ m.core.celdas, cd.sucia = true ↔ cd.pos ∈ m.dirty_positions) ∧
    (0 < D → contar_celdas_limpias m = Except.ok 0) ∧
    (∀ l ∈ m.core.limps, l.movimientos = 0 ∧ l.pos = (1, 1)) ∧
    (∀ (m2 m3 : HabitacionModel) (r3 r4 : Rng),
      habitacionStep m2 r3 = Except.ok (m3, r4) →
      m3.dirty_positions = m2.dirty_positions ∧
      m3.celdas_sucias = m2.celdas_sucias) := by
  unfold habitacionInit at hok
  by_cases h1 : D ≤ (M * N).toNat
  · rw [if_pos h1] at hok
    by_cases h2 : K ≠ 0 ∧ (M < 2 ∨ N < 2)
    · rw [if_pos h2] at hok; exact absurd hok (by simp)
    · rw [if_neg h2] at hok
      injection hok with hok2
      injection hok2 with hm hr
      subst hm
      have hmn : (M * N).toNat = M.toNat * N.toNat := by
        have hMN : M * N = ((M.toNat * N.toNat : Nat) : ℤ) := by
          rw [Nat.cast_mul, Int.toNat_of_nonneg hM.le, Int.toNat_of_nonneg hN.le]
        rw [hMN, Int.toNat_natCast]
      obtain ⟨hs1, hs2, hs3⟩ := sample_range_spec (M * N).toNat D r h1
      have hs4 : ∀ x ∈ (sampleAux D (List.range (M * N).toNat) r).1,
          x < M.toNat * N.toNat := by
        intro x hx
        have := hs3 x hx
        omega
      refine ⟨?_, ?_, ?_, ?_, ?_, ?_⟩
      · exact dirty_positions_nodup M N _
      · rw [dirty_positions_length hs1 hs4]
        exact hs2
      · intro cd hcd
        exact initCeldas_sucia_iff hcd
      · intro hD
        exact contar_init_zero _ (by dsimp only; omega) rfl rfl
      · intro l hl
        dsimp only at hl
        unfold initLimps at hl
        rcases List.mem_map.mp hl with ⟨i, _, rfl⟩
        exact ⟨rfl, rfl⟩
      · exact habitacionStep_preserves_dirty
  · rw [if_neg h1] at hok; exact absurd hok (by simp)

theorem init_establishes_state_witness :
    (modelOf (habitacionInit 3 3 2 1 [4])).dirty_positions.length = 1 ∧
    contar_celdas_limpias (modelOf (habitacionInit 3 3 2 1 [4])) = Except.ok 0 :=
  ⟨(init_establishes_state 3 3 2 1 [4] [] (modelOf (habitacionInit 3 3 2 1 [4]))
      (by decide) (by decide) (by decide)).2.1,
   (init_establishes_state 3 3 2 1 [4] [] (modelOf (habitacionInit 3 3 2 1 [4]))
      (by decide) (by decide) (by decide)).2.2.2.1 (by decide)⟩
